import Mathlib

/-!
Verification of the World Cup ETL transform core
(`src/transform.py`, `src/config.py`) against its specification.

The Python code is shallowly embedded: every definition below is a direct
translation of the corresponding function in `transform.py` (class
`WorldCupTransformer`) or a constant of `config.py`.  Pandas tables are
lists of typed records, missing values (`None`/`NaN`) are `Option`,
Python `int` is `Int`/`Nat`, exceptions are `Option`/`Except`.
-/

namespace WCup

/-! ## Python string primitives -/

/-- ASCII whitespace recognised by Python's `str.strip()` (the sources never
contain non-ASCII whitespace). -/
def pyIsSpace (c : Char) : Bool :=
  c = ' ' || c = '\t' || c = '\n' || c = '\r' || c = '\x0b' || c = '\x0c'

/-- Decimal digit, as recognised by `\d` and `str.isdigit` on ASCII data. -/
def isDig (c : Char) : Bool := '0' ≤ c && c ≤ '9'

def stripLeft (cs : List Char) : List Char := cs.dropWhile pyIsSpace

def stripRight (cs : List Char) : List Char := (cs.reverse.dropWhile pyIsSpace).reverse

/-- Python `str.strip()`. -/
def pyStrip (s : String) : String := ⟨stripRight (stripLeft s.data)⟩

/-- Python `str.isdigit()` (ASCII fragment): non-empty and all digits. -/
def pyIsDigitStr (s : String) : Bool := !s.data.isEmpty && s.data.all isDig

/-- Case table: the cased characters occurring in the repository's data.
ASCII letters plus the accented letters used in `config.py`
(ô, é, í, á, ã and their upper-case forms). -/
def accentLower : List (Char × Char) :=
  [('ô', 'Ô'), ('é', 'É'), ('í', 'Í'), ('á', 'Á'), ('ã', 'Ã')]

def isLowerCased (c : Char) : Bool :=
  ('a' ≤ c && c ≤ 'z') || (accentLower.map Prod.fst).contains c

def isUpperCased (c : Char) : Bool :=
  ('A' ≤ c && c ≤ 'Z') || (accentLower.map Prod.snd).contains c

def pyIsCased (c : Char) : Bool := isLowerCased c || isUpperCased c

def pyUpChar (c : Char) : Char :=
  if 'a' ≤ c && c ≤ 'z' then Char.ofNat (c.toNat - 32)
  else match accentLower.lookup c with
       | some u => u
       | none => c

def pyLowChar (c : Char) : Char :=
  if 'A' ≤ c && c ≤ 'Z' then Char.ofNat (c.toNat + 32)
  else match (accentLower.map (fun p => (p.2, p.1))).lookup c with
       | some l => l
       | none => c

/-- Python `str.title()`: a cased character is upper-cased when the previous
character is uncased, lower-cased otherwise. -/
def pyTitleAux : Bool → List Char → List Char
  | _, [] => []
  | prevCased, c :: cs =>
      (if pyIsCased c then (if prevCased then pyLowChar c else pyUpChar c) else c)
        :: pyTitleAux (pyIsCased c) cs

def pyTitle (s : String) : String := ⟨pyTitleAux false s.data⟩

/-- Python `str.lower()` on the modelled character set. -/
def pyLower (s : String) : String := ⟨s.data.map pyLowChar⟩

def startsWithL [DecidableEq α] : List α → List α → Bool
  | _, [] => true
  | [], _ :: _ => false
  | a :: as, b :: bs => a = b && startsWithL as bs

/-- Python substring test `sub in s` (on char lists). -/
def containsSubL [DecidableEq α] : List α → List α → Bool
  | [], sub => sub.isEmpty
  | l@(_ :: rest), sub => startsWithL l sub || containsSubL rest sub

/-- Python substring test `sub in s`. -/
def pyContains (s sub : String) : Bool := containsSubL s.data sub.data

/-- `str.replace('"', '')`: removing every occurrence of one character is a
filter. -/
def removeQuotes (s : String) : String := ⟨s.data.filter (fun c => c ≠ '"')⟩

/-- Value of a non-empty digit string (`int` applied to a digit string). -/
def digitsVal (cs : List Char) : Nat :=
  cs.foldl (fun acc c => 10 * acc + (c.toNat - '0'.toNat)) 0

/-- Python `int(s)` on a string: strip whitespace, optional sign, digits;
anything else raises `ValueError`, modelled as `none`. -/
def pyIntOfString (s : String) : Option Int :=
  let cs := (pyStrip s).data
  match cs with
  | '-' :: rest => if rest ≠ [] && rest.all isDig then some (-(digitsVal rest : Int)) else none
  | '+' :: rest => if rest ≠ [] && rest.all isDig then some ((digitsVal rest : Int)) else none
  | _ => if cs ≠ [] && cs.all isDig then some ((digitsVal cs : Int)) else none

/-- The decimal digit character for `d < 10`. -/
def decDigit : Nat → Char
  | 0 => '0' | 1 => '1' | 2 => '2' | 3 => '3' | 4 => '4'
  | 5 => '5' | 6 => '6' | 7 => '7' | 8 => '8' | _ => '9'

/-- Decimal representation of a natural number (the model of Python's
`str(n)` / `f"{n}"` for `n ≥ 0`). -/
def natDecChars (n : Nat) : List Char :=
  if n < 10 then [decDigit n]
  else natDecChars (n / 10) ++ [decDigit (n % 10)]
  decreasing_by exact Nat.div_lt_self (by omega) (by omega)

def natDec (n : Nat) : String := ⟨natDecChars n⟩

/-- Decimal representation of a Python `int` (possibly negative). -/
def intDec (i : Int) : String :=
  if i < 0 then ⟨'-' :: natDecChars i.natAbs⟩ else natDec i.natAbs

/-! ## Python scalar values

`parse_score` and `compute_result` receive pandas cells: `None`, float
`NaN`, integers, or strings.  (The tuple/list branch of `parse_score` is
unreachable for these inputs and is not part of the value type: passing an
actual tuple makes the initial `pd.isna(...)` test raise on an array.) -/

inductive PyVal where
  | vNone : PyVal
  | vNaN : PyVal
  | vInt : Int → PyVal
  | vStr : String → PyVal
  deriving DecidableEq, Repr

open PyVal

/-- `pd.isna` on a scalar. -/
def pdIsna : PyVal → Bool
  | vNone => true
  | vNaN => true
  | _ => false

/-- Python `str(...)` of a scalar. -/
def pyStr : PyVal → String
  | vNone => "None"
  | vNaN => "nan"
  | vInt i => intDec i
  | vStr s => s

/-- Python `int(...)` of a scalar, `none` when `int` raises
(`ValueError`/`TypeError`). -/
def pyIntCast : PyVal → Option Int
  | vNone => none
  | vNaN => none
  | vInt i => some i
  | vStr s => pyIntOfString s

/-! ## `parse_score` (transform.py:24) -/

/-- The regex `^(\d+)[^\d]+(\d+)`: maximal leading digit run, a non-empty
non-digit run, then a digit run.  Returns the two captured numbers. -/
def scoreRegex (cs : List Char) : Option (Nat × Nat) :=
  let d1 := cs.takeWhile isDig
  let r1 := cs.dropWhile isDig
  let nd := r1.takeWhile (fun c => !isDig c)
  let r2 := r1.dropWhile (fun c => !isDig c)
  let d2 := r2.takeWhile isDig
  if d1.isEmpty || nd.isEmpty || d2.isEmpty then none
  else some (digitsVal d1, digitsVal d2)

/-- `WorldCupTransformer.parse_score`.  Missing/empty input and regex failure
give `(None, None)`; otherwise the first two numbers of the string. -/
def parse_score (v : PyVal) : Option Int × Option Int :=
  if pdIsna v || pyStrip (pyStr v) = "" then (none, none)
  else
    match scoreRegex (pyStrip (pyStr v)).data with
    | some (h, a) => (some (h : Int), some (a : Int))
    | none => (none, none)

/-! ## `compute_result` (transform.py:117) -/

/-- Python truthiness of an optional string (`if home_team`). -/
def truthyStr : Option String → Bool
  | none => false
  | some s => s ≠ ""

/-- `WorldCupTransformer.compute_result`: `None` when a score is missing or
non-numeric; else the winner's name, with falsy team names replaced by the
literals `"home_team"`/`"away_team"`; `"draw"` on equality. -/
def compute_result (home_goals away_goals : PyVal)
    (home_team away_team : Option String) : Option String :=
  if pdIsna home_goals || pdIsna away_goals then none
  else
    match pyIntCast home_goals, pyIntCast away_goals with
    | some hg, some ag =>
        if hg > ag then some (if truthyStr home_team then home_team.getD "" else "home_team")
        else if ag > hg then some (if truthyStr away_team then away_team.getD "" else "away_team")
        else some "draw"
    | _, _ => none

/-! ## Reference tables (`config.py`) -/

/-- `config.TEAMS_MAPPING` (keys are pairwise distinct, so association-list
lookup coincides with Python dict lookup). -/
def TEAMS_MAPPING : List (String × String) :=
  [("West Germany", "Germany"), ("FR Germany", "Germany"), ("German DR", "East Germany"),
   ("Germany FR", "Germany"), ("FRG", "Germany"), ("Frg", "Germany"),
   ("Soviet Union", "Russia"), ("USSR", "Russia"),
   ("Yugoslavia", "Serbia"), ("Czechoslovakia", "Czech Republic"),
   ("Korea Republic", "South Korea"), ("Korea DPR", "North Korea"),
   ("South Korea", "South Korea"),
   ("United States", "USA"), ("US", "USA"), ("Usa", "USA"),
   ("Ivory Coast", "Cote d'Ivoire"), ("Côte d'Ivoire", "Cote d'Ivoire"),
   ("Bosnia-Herzegovina", "Bosnia and Herzegovina"),
   ("Iran", "Iran"), ("IR Iran", "Iran"),
   ("Irish Republic", "Republic of Ireland"), ("Northern Ireland", "Northern Ireland"),
   ("FRANCE", "France"), ("BRAZIL", "Brazil"), ("ARGENTINA", "Argentina")]

/-- `config.CITIES_MAPPING`. -/
def CITIES_MAPPING : List (String × String) :=
  [("MONTEVIDEO", "Montevideo"),
   ("MEXICO CITY", "Mexico City"), ("Mexico (México)", "Mexico City"), ("México", "Mexico City"),
   ("Sao Paulo", "São Paulo"), ("São Paulo", "São Paulo"),
   ("Rio de Janeiro", "Rio de Janeiro"),
   ("Saint-Denis", "Paris"), ("Saint Denis", "Paris"),
   ("ROME", "Rome"), ("PARIS", "Paris"), ("BERLIN", "Berlin"), ("LONDON", "London"),
   ("MADRID", "Madrid"), ("BARCELONA", "Barcelona"), ("BUENOS AIRES", "Buenos Aires"),
   ("Brasilia", "Brasília"), ("Brasília", "Brasília"),
   ("Belo Horizonte", "Belo Horizonte"), ("Porto Alegre", "Porto Alegre"),
   ("Curitiba", "Curitiba"), ("Manaus", "Manaus"), ("Fortaleza", "Fortaleza"),
   ("Recife", "Recife"), ("Salvador", "Salvador"), ("Natal", "Natal"),
   ("Cuiaba", "Cuiabá")]

/-- `config.ROUNDS_MAPPING`. -/
def ROUNDS_MAPPING : List (String × String) :=
  [("GROUP_STAGE", "Group Stage"),
   ("Group A", "Group Stage"), ("Group B", "Group Stage"), ("Group C", "Group Stage"),
   ("Group D", "Group Stage"), ("Group E", "Group Stage"), ("Group F", "Group Stage"),
   ("Group G", "Group Stage"), ("Group H", "Group Stage"),
   ("Group 1", "Group Stage"), ("Group 2", "Group Stage"), ("Group 3", "Group Stage"),
   ("Group 4", "Group Stage"),
   ("Poules", "Group Stage"), ("First round", "Group Stage"),
   ("Preliminary round", "Group Stage"),
   ("8e de finale", "Round of 16"), ("Round of 16", "Round of 16"),
   ("ROUND_OF_16", "Round of 16"), ("Eighth-finals", "Round of 16"),
   ("1/4 finale", "Quarter-finals"), ("Quarter-finals", "Quarter-finals"),
   ("QUARTER_FINALS", "Quarter-finals"), ("Quarterfinals", "Quarter-finals"),
   ("1/2 finale", "Semi-finals"), ("Semi-finals", "Semi-finals"),
   ("SEMI_FINALS", "Semi-finals"), ("Semifinals", "Semi-finals"),
   ("3rd place", "Third Place"), ("Match pour la 3e place", "Third Place"),
   ("Third place", "Third Place"), ("Play-off for third place", "Third Place"),
   ("Final", "Final"), ("Finale", "Final"), ("FINAL", "Final")]

/-! ## `normalize_team` (transform.py:61) -/

/-- The regex substitution `re.sub(r'\s*\(.*\)', '', team)`: with a greedy
`.*` the single match runs from the whitespace run before the first `'('`
that has some `')'` after it, up to the last `')'` of the string. -/
def findParen : List Char → Option (List Char × List Char)
  | [] => none
  | c :: rest =>
      if c = '(' && rest.contains ')' then some ([], c :: rest)
      else match findParen rest with
           | some (p, s) => some (c :: p, s)
           | none => none

def afterLastRParen (l : List Char) : List Char :=
  (l.reverse.takeWhile (fun c => c ≠ ')')).reverse

def removeParenGreedy (s : String) : String :=
  match findParen s.data with
  | some (pre, suf) => ⟨stripRight pre ++ afterLastRParen suf⟩
  | none => s

/-- `WorldCupTransformer.normalize_team`.  `none` models a missing
(`NaN`) cell. -/
def normalize_team (team_name : Option String) : String :=
  match team_name with
  | none => "Unknown"
  | some t0 =>
      let team := pyStrip t0
      if pyIsDigitStr team then "Unknown"
      else
        let team := pyStrip (removeQuotes (removeParenGreedy team))
        if pyContains team "C_" && pyContains team "Ivoire" then "Cote d'Ivoire"
        else if pyContains team "Trinidad" && pyContains team "Tobago" then "Trinidad and Tobago"
        else match TEAMS_MAPPING.lookup team with
        | some v => v
        | none =>
          match TEAMS_MAPPING.lookup (pyTitle team) with
          | some v => v
          | none =>
            if pyContains team "CTe" || pyContains team "Côte" || pyContains team "Cote" then
              "Cote d'Ivoire"
            else pyTitle team

/-! ## `normalize_city` (transform.py:96) -/

/-- After the first `')'` of a char list (empty if there is none). -/
def dropThroughRParen (l : List Char) : List Char :=
  (l.dropWhile (fun c => c ≠ ')')).drop 1

theorem dropWhile_len_le (p : α → Bool) (l : List α) : (l.dropWhile p).length ≤ l.length := by
  induction l with
  | nil => simp
  | cons a l ih => by_cases h : p a <;> simp [List.dropWhile, h] <;> omega

theorem dropThroughRParen_len_le (l : List Char) : (dropThroughRParen l).length ≤ l.length := by
  have h1 := dropWhile_len_le (fun c => c ≠ ')') l
  have h2 := List.length_drop 1 (l.dropWhile (fun c => c ≠ ')'))
  simp only [dropThroughRParen]
  omega

/-- The regex substitution `re.sub(r'\([^)]*\)', '', city)`: every
`(`…`)` pair (up to the first closing parenthesis) is removed. -/
def removeParenPairs : List Char → List Char
  | [] => []
  | c :: rest =>
      if c = '(' then
        if rest.contains ')' then removeParenPairs (dropThroughRParen rest)
        else c :: rest
      else c :: removeParenPairs rest
  termination_by l => l.length
  decreasing_by
    · have := dropThroughRParen_len_le rest
      simp only [List.length_cons]
      omega
    · simp

/-- `WorldCupTransformer.normalize_city`. -/
def normalize_city (city_name : Option String) : Option String :=
  match city_name with
  | none => none
  | some c0 =>
      let city := removeQuotes (pyStrip c0)
      let city := pyStrip ⟨removeParenPairs city.data⟩
      let city := (CITIES_MAPPING.lookup city).getD city
      some (pyTitle city)

/-! ## `normalize_round` (transform.py:106) -/

/-- `WorldCupTransformer.normalize_round`. -/
def normalize_round (round_str : Option String) : Option String :=
  match round_str with
  | none => none
  | some r0 =>
      let rc := removeQuotes (pyStrip r0)
      match ROUNDS_MAPPING.lookup rc with
      | some v => some v
      | none =>
          if pyContains (pyLower rc) "group" || pyContains (pyLower rc) "poule" then
            some "Group Stage"
          else some (pyTitle rc)

/-! ## Dates and canonical match records -/

/-- A pandas `Timestamp` date (time-of-day never matters in this pipeline). -/
structure PDate where
  year : Nat
  month : Nat
  day : Nat
  deriving DecidableEq, Repr

def dateLe (a b : PDate) : Bool :=
  a.year < b.year ||
    (a.year = b.year && (a.month < b.month || (a.month = b.month && a.day ≤ b.day)))

def dateLt (a b : PDate) : Bool :=
  a.year < b.year ||
    (a.year = b.year && (a.month < b.month || (a.month = b.month && a.day < b.day)))

/-- Ascending date order with missing dates (`NaT`) last, as pandas
`sort_values` does by default. -/
def optDateLe : Option PDate → Option PDate → Bool
  | none, none => true
  | none, some _ => false
  | some _, none => true
  | some a, some b => dateLe a b

theorem dateLe_total (a b : PDate) : dateLe a b || dateLe b a := by
  simp only [dateLe, Bool.or_eq_true, Bool.and_eq_true, decide_eq_true_eq]
  omega

theorem dateLe_trans {a b c : PDate} (h1 : dateLe a b) (h2 : dateLe b c) : dateLe a c := by
  simp only [dateLe, Bool.or_eq_true, Bool.and_eq_true, decide_eq_true_eq] at *
  omega

theorem optDateLe_total (a b : Option PDate) : optDateLe a b || optDateLe b a := by
  cases a <;> cases b <;> simp [optDateLe, dateLe_total]

theorem optDateLe_trans {a b c : Option PDate} (h1 : optDateLe a b) (h2 : optDateLe b c) :
    optDateLe a c := by
  cases a <;> cases b <;> cases c <;> simp [optDateLe] at * <;> exact dateLe_trans h1 h2

/-- A Canonical Match Record: the row shape every per-source transformer
emits and `consolidate` consumes (`edition` is always a string column). -/
structure CRow where
  home_team : Option String
  away_team : Option String
  home_result : Option Int
  away_result : Option Int
  result : Option String
  date : Option PDate
  round : Option String
  city : Option String
  edition : String
  deriving DecidableEq, Repr

/-- A consolidated row: canonical record plus `id_match`. -/
structure FRow where
  id_match : Nat
  row : CRow
  deriving DecidableEq, Repr

/-- Date order lifted to canonical rows. -/
def rowDateLe (a b : CRow) : Prop := optDateLe a.date b.date = true

instance : DecidableRel rowDateLe := fun a b => Bool.decEq _ true

instance : IsTotal CRow rowDateLe :=
  ⟨fun a b => by
    have := optDateLe_total a.date b.date
    rcases Bool.or_eq_true _ _ ▸ this with h | h
    · exact Or.inl h
    · exact Or.inr h⟩

instance : IsTrans CRow rowDateLe := ⟨fun _ _ _ => optDateLe_trans⟩

/-! ## `consolidate` (transform.py:592) -/

/-- `pd.to_datetime(edition + "-01-01", errors='coerce')`: a date only when
`edition` is a decimal year within the pandas `Timestamp` range
(1678–2262); anything else coerces to `NaT`. -/
def parseEditionDate (ed : String) : Option PDate :=
  if pyIsDigitStr ed then
    let y := digitsVal ed.data
    if 1678 ≤ y && y ≤ 2262 then some ⟨y, 1, 1⟩ else none
  else none

/-- `df['round'].astype(str).str.contains('preliminary', case=False,
na=False)`: a missing round becomes the string `'nan'`, which never
matches. -/
def roundExcluded : Option String → Bool
  | none => false
  | some s => pyContains (pyLower s) "preliminary"

def dedupKey (r : CRow) : Option String × Option String × Option PDate × Option String :=
  (r.home_team, r.away_team, r.date, r.round)

/-- `drop_duplicates(subset=[home_team, away_team, date, round],
keep='first')`. -/
def pdDropDup (seen : List (Option String × Option String × Option PDate × Option String)) :
    List CRow → List CRow
  | [] => []
  | r :: rest =>
      if seen.contains (dedupKey r) then pdDropDup seen rest
      else r :: pdDropDup (dedupKey r :: seen) rest

/-- Steps 1–5 of `consolidate` after input filtering: concatenation, missing
date rescue, team dropna, preliminary-round blacklist, deduplication. -/
def consolidatePrep (valid : List (List CRow)) : List CRow :=
  let all := valid.flatten
  let all := all.map (fun r => if r.date = none then { r with date := parseEditionDate r.edition } else r)
  let all := all.filter (fun r => r.home_team ≠ none && r.away_team ≠ none)
  let all := all.filter (fun r => !roundExcluded r.round)
  pdDropDup [] all

/-- `range(1, len(df_all) + 1)` pasted next to the sorted rows. -/
def assignIds (n : Nat) : List CRow → List FRow
  | [] => []
  | r :: rs => ⟨n, r⟩ :: assignIds (n + 1) rs

/-- What a call of the Python `consolidate` does: it either returns a value
(a table or `None`) or raises.  The embedded function never constructs
`raised`: every fallible step of the source is wrapped in `try/except` and
every failure path executes `return None`. -/
inductive ConsOutcome where
  | returned : Option (List FRow) → ConsOutcome
  | raised : String → ConsOutcome
  deriving DecidableEq, Repr

/-- `WorldCupTransformer.consolidate`.  `dfs_list = none` models passing
`None`; a `none` entry models a `None` DataFrame.  The final sort is
modelled by a stable insertion sort on the date column (`NaT` last). -/
def consolidate (dfs_list : Option (List (Option (List CRow)))) : ConsOutcome :=
  match dfs_list with
  | none => .returned none
  | some dfs =>
      let valid := (dfs.filterMap id).filter (fun df => !df.isEmpty)
      if valid.isEmpty then .returned none
      else
        let sorted := (consolidatePrep valid).insertionSort rowDateLe
        .returned (some (assignIds 1 sorted))

/-! ## Facts about the consolidation pipeline pieces -/

theorem assignIds_map_id (n : Nat) (l : List CRow) :
    (assignIds n l).map FRow.id_match = List.range' n l.length := by
  induction l generalizing n with
  | nil => simp [assignIds]
  | cons r rs ih => simp [assignIds, List.range', ih]

theorem assignIds_map_row (n : Nat) (l : List CRow) :
    (assignIds n l).map FRow.row = l := by
  induction l generalizing n with
  | nil => simp [assignIds]
  | cons r rs ih => simp [assignIds, ih]

theorem assignIds_length (n : Nat) (l : List CRow) : (assignIds n l).length = l.length := by
  have := assignIds_map_row n l
  calc (assignIds n l).length = ((assignIds n l).map FRow.row).length := by simp
    _ = l.length := by rw [this]

theorem assignIds_pairwise {R : CRow → CRow → Prop} {l : List CRow} (n : Nat)
    (h : l.Pairwise R) : (assignIds n l).Pairwise (fun a b => R a.row b.row) := by
  induction l generalizing n with
  | nil => simp [assignIds]
  | cons r rs ih =>
      rcases List.pairwise_cons.mp h with ⟨h1, h2⟩
      refine List.pairwise_cons.mpr ⟨?_, ih (n + 1) h2⟩
      intro fr hfr
      have : fr.row ∈ rs := by
        have := List.mem_map_of_mem FRow.row hfr
        rwa [assignIds_map_row] at this
      exact h1 _ this

theorem mem_assignIds {fr : FRow} {l : List CRow} {n : Nat}
    (h : fr ∈ assignIds n l) : fr.row ∈ l := by
  have := List.mem_map_of_mem FRow.row h
  rwa [assignIds_map_row] at this

theorem mem_pdDropDup {r : CRow} {seen : List (Option String × Option String × Option PDate × Option String)}
    {l : List CRow} (h : r ∈ pdDropDup seen l) : r ∈ l := by
  induction l generalizing seen with
  | nil => simpa [pdDropDup] using h
  | cons a as ih =>
      by_cases hs : seen.contains (dedupKey a)
      · simp only [pdDropDup, if_pos hs] at h
        exact List.mem_cons_of_mem a (ih h)
      · simp only [pdDropDup, if_neg hs, List.mem_cons] at h
        rcases h with h | h
        · exact h ▸ List.mem_cons_self a as
        · exact List.mem_cons_of_mem a (ih h)

theorem mem_consolidatePrep_not_preliminary {r : CRow} {valid : List (List CRow)}
    (h : r ∈ consolidatePrep valid) : roundExcluded r.round = false := by
  simp only [consolidatePrep] at h
  have h2 := mem_pdDropDup h
  have h3 := List.mem_filter.mp h2
  simpa using h3.2

/-! ## Claim theorems: consolidation -/

/-- C1: whenever `consolidate` returns a non-null table `t` with `N` rows,
its `id_match` column is `[1, …, N]` (hence duplicate-free with value set
exactly `{1..N}`), the rows are in ascending date order, and the rows are a
permutation of the deduplicated, filtered concatenation of the valid
inputs (`id_match` is the 1-based rank in date order after
deduplication). -/
theorem consolidate_id_match_contiguous (dfs : Option (List (Option (List CRow))))
    (t : List FRow) (h : consolidate dfs = ConsOutcome.returned (some t)) :
    t.map FRow.id_match = List.range' 1 t.length ∧
    (t.map FRow.id_match).Nodup ∧
    (∀ k, k ∈ t.map FRow.id_match ↔ 1 ≤ k ∧ k ≤ t.length) ∧
    t.Pairwise (fun a b => rowDateLe a.row b.row) ∧
    ∃ dfs0, dfs = some dfs0 ∧
      (t.map FRow.row).Perm
        (consolidatePrep ((dfs0.filterMap id).filter (fun df => !df.isEmpty))) := by
  match dfs with
  | none => simp [consolidate] at h
  | some dfs0 =>
      simp only [consolidate] at h
      by_cases hv : ((dfs0.filterMap id).filter (fun df => !df.isEmpty)).isEmpty
      · rw [if_pos hv] at h; simp at h
      · rw [if_neg hv] at h
        have ht : t = assignIds 1 (((consolidatePrep ((dfs0.filterMap id).filter (fun df => !df.isEmpty)))).insertionSort rowDateLe) := by
          injection h with h'; injection h' with h''; exact h''.symm
        subst ht
        set prep := consolidatePrep ((dfs0.filterMap id).filter (fun df => !df.isEmpty)) with hprep
        set srt := prep.insertionSort rowDateLe with hsrt
        refine ⟨?_, ?_, ?_, ?_, dfs0, rfl, ?_⟩
        · rw [assignIds_map_id, assignIds_length]
        · rw [assignIds_map_id]; exact List.nodup_range' _ _
        · intro k
          rw [assignIds_map_id, assignIds_length, List.mem_range'_1]
          omega
        · exact assignIds_pairwise 1 (List.sorted_insertionSort rowDateLe prep)
        · rw [assignIds_map_row]
          exact List.perm_insertionSort rowDateLe prep

def c1df1 : List CRow :=
  [⟨some "France", some "Brazil", some 1, some 0, some "France",
    some ⟨1998, 7, 12⟩, some "Final", some "Paris", "1998"⟩,
   ⟨some "Italy", some "Spain", some 2, some 2, some "draw",
    none, some "Group Stage", some "Rome", "1934"⟩]

def c1df2 : List CRow :=
  [⟨some "USA", some "Iran", some 0, some 1, some "Iran",
    some ⟨1930, 7, 13⟩, some "Group Stage", some "Montevideo", "1930"⟩,
   ⟨some "France", some "Brazil", some 1, some 0, some "France",
    some ⟨1998, 7, 12⟩, some "Final", some "Paris", "1998"⟩]

def c1input : Option (List (Option (List CRow))) := some [some c1df1, none, some c1df2, some []]

def c1output : List FRow := assignIds 1
  ((consolidatePrep ((([some c1df1, none, some c1df2, some []] : List (Option (List CRow))).filterMap id).filter
      (fun df => !df.isEmpty))).insertionSort rowDateLe)

theorem consolidate_id_match_contiguous_witness :
    consolidate c1input = ConsOutcome.returned (some c1output) ∧
    (c1output.map FRow.id_match = List.range' 1 c1output.length ∧
     (c1output.map FRow.id_match).Nodup ∧
     (∀ k, k ∈ c1output.map FRow.id_match ↔ 1 ≤ k ∧ k ≤ c1output.length) ∧
     c1output.Pairwise (fun a b => rowDateLe a.row b.row) ∧
     ∃ dfs0, c1input = some dfs0 ∧
       (c1output.map FRow.row).Perm
         (consolidatePrep ((dfs0.filterMap id).filter (fun df => !df.isEmpty)))) :=
  ⟨rfl, consolidate_id_match_contiguous c1input c1output rfl⟩

/-- C2 (amended): no row of a consolidated table has a round label that
contains "preliminary" in any case; the blacklist acts on the *normalized*
round value, so a raw label that `normalize_round` maps into the taxonomy
(such as the exact `ROUNDS_MAPPING` key "Preliminary round", which becomes
"Group Stage") escapes the filter and its row is retained. -/
theorem consolidate_no_preliminary_round (dfs : Option (List (Option (List CRow))))
    (t : List FRow) (h : consolidate dfs = ConsOutcome.returned (some t)) :
    ∀ fr ∈ t, ∀ s, fr.row.round = some s → pyContains (pyLower s) "preliminary" = false := by
  intro fr hfr s hs
  match dfs with
  | none => simp [consolidate] at h
  | some dfs0 =>
      simp only [consolidate] at h
      by_cases hv : ((dfs0.filterMap id).filter (fun df => !df.isEmpty)).isEmpty
      · rw [if_pos hv] at h; simp at h
      · rw [if_neg hv] at h
        have ht : t = assignIds 1 (((consolidatePrep ((dfs0.filterMap id).filter (fun df => !df.isEmpty)))).insertionSort rowDateLe) := by
          injection h with h'; injection h' with h''; exact h''.symm
        subst ht
        have h1 : fr.row ∈ (consolidatePrep ((dfs0.filterMap id).filter (fun df => !df.isEmpty))).insertionSort rowDateLe :=
          mem_assignIds hfr
        have h2 : fr.row ∈ consolidatePrep ((dfs0.filterMap id).filter (fun df => !df.isEmpty)) :=
          (List.perm_insertionSort rowDateLe _).mem_iff.mp h1
        have h3 := mem_consolidatePrep_not_preliminary h2
        rw [hs] at h3
        simpa [roundExcluded] using h3

/-- The row of the C2 counterexample: its `round` is the result of the
per-source transform's `normalize_round` on the raw label
"Preliminary round". -/
def c2row : CRow :=
  ⟨some "Sweden", some "Norway", some 2, some 1, some "Sweden",
   some ⟨1938, 6, 5⟩, normalize_round (some "Preliminary round"),
   some "Paris", "1938"⟩

/-- C2 counterexample: the raw round label "Preliminary round" contains
"preliminary" (case-insensitively), yet the row derived from it survives
the per-source transform (`normalize_round` maps the label to
"Group Stage") and consolidation: it appears in the final table, refuting
the claim that every such row is absent. -/
theorem consolidate_preliminary_retained_cex :
    pyContains (pyLower "Preliminary round") "preliminary" = true ∧
    normalize_round (some "Preliminary round") = some "Group Stage" ∧
    consolidate (some [some [c2row]]) =
      ConsOutcome.returned (some [⟨1, c2row⟩]) ∧
    (⟨1, c2row⟩ : FRow).row.round = some "Group Stage" := by
  refine ⟨by decide, by decide, rfl, by decide⟩

def c2table : List CRow :=
  [⟨some "Mexico", some "USA", some 3, some 3, some "draw",
    some ⟨1934, 5, 24⟩, normalize_round (some "preliminary Round 2"), some "Rome", "1934"⟩,
   c2row]

theorem consolidate_no_preliminary_round_witness :
    consolidate (some [some c2table]) = ConsOutcome.returned (some [⟨1, c2row⟩]) ∧
    (∀ fr ∈ [(⟨1, c2row⟩ : FRow)], ∀ s, fr.row.round = some s →
      pyContains (pyLower s) "preliminary" = false) := by
  constructor
  · rfl
  · exact consolidate_no_preliminary_round (some [some c2table]) _ rfl

/-- C4 (amended): called with a null list, or with a list whose members are
all null or empty, `consolidate` logs the problem and returns `None` (the
null value); it raises nothing — the source has no raise path at all, so
no `ConsolidationError` exists. -/
theorem consolidate_all_empty_returns_none (dfs : Option (List (Option (List CRow))))
    (h : dfs = none ∨ ∃ l, dfs = some l ∧ ∀ d ∈ l, d = none ∨ d = some []) :
    consolidate dfs = ConsOutcome.returned none := by
  rcases h with h | ⟨l, rfl, hall⟩
  · subst h; rfl
  · simp only [consolidate]
    have : (l.filterMap id).filter (fun df => !df.isEmpty) = [] := by
      induction l with
      | nil => rfl
      | cons d ds ih =>
          have hd := hall d (List.mem_cons_self d ds)
          have hrest : ∀ x ∈ ds, x = none ∨ x = some [] := fun x hx =>
            hall x (List.mem_cons_of_mem d hx)
          rcases hd with rfl | rfl
          · simpa [List.filterMap_cons] using ih hrest
          · simpa [List.filterMap_cons, List.filter_cons] using ih hrest
    rw [this]
    rfl

theorem consolidate_all_empty_returns_none_witness :
    consolidate (some [none, some []]) = ConsOutcome.returned none :=
  consolidate_all_empty_returns_none (some [none, some []])
    (Or.inr ⟨[none, some []], rfl, by decide⟩)

/-- C4 counterexample: on all-null/empty input (and on a null list) the code
does not fail with a `ConsolidationError` — it executes `return None`, so
the call yields the value `None` and raises nothing. -/
theorem consolidate_empty_no_error_cex :
    consolidate (some [some [], none]) = ConsOutcome.returned none ∧
    consolidate none = ConsOutcome.returned none ∧
    (∀ e : String, consolidate (some [some [], none]) ≠ ConsOutcome.raised e) := by
  refine ⟨rfl, rfl, fun e h => ?_⟩
  rw [show consolidate (some [some [], none]) = ConsOutcome.returned none from rfl] at h
  exact ConsOutcome.noConfusion h

/-! ## Facts about decimal representations and the score regex -/

theorem decDigit_isDig {d : Nat} (h : d < 10) : isDig (decDigit d) = true := by
  interval_cases d <;> decide

theorem decDigit_toNat {d : Nat} (h : d < 10) : (decDigit d).toNat = 48 + d := by
  interval_cases d <;> decide

theorem natDecChars_ne_nil (n : Nat) : natDecChars n ≠ [] := by
  rw [natDecChars]
  split <;> simp

theorem natDecChars_all_dig (n : Nat) : (natDecChars n).all isDig = true := by
  induction n using Nat.strong_induction_on with
  | _ n ih =>
      rw [natDecChars]
      split
      · next h => simp [decDigit_isDig h]
      · next h =>
          have hd : n / 10 < n := Nat.div_lt_self (by omega) (by omega)
          have h10 : n % 10 < 10 := Nat.mod_lt _ (by omega)
          simp [List.all_append, ih _ hd, decDigit_isDig h10]

theorem digitsVal_append_singleton (l : List Char) (c : Char) :
    digitsVal (l ++ [c]) = 10 * digitsVal l + (c.toNat - '0'.toNat) := by
  simp [digitsVal, List.foldl_append]

theorem digitsVal_natDecChars (n : Nat) : digitsVal (natDecChars n) = n := by
  induction n using Nat.strong_induction_on with
  | _ n ih =>
      rw [natDecChars]
      split
      · next h =>
          have h0 := decDigit_toNat h
          have hz : '0'.toNat = 48 := rfl
          simp only [digitsVal, List.foldl_cons, List.foldl_nil, h0, hz]
          omega
      · next h =>
          have hd : n / 10 < n := Nat.div_lt_self (by omega) (by omega)
          have h10 : n % 10 < 10 := Nat.mod_lt _ (by omega)
          have hz : '0'.toNat = 48 := rfl
          rw [digitsVal_append_singleton, ih _ hd, decDigit_toNat h10, hz]
          omega

theorem takeWhile_append_all {p : α → Bool} {l1 : List α} (l2 : List α)
    (h : l1.all p = true) : (l1 ++ l2).takeWhile p = l1 ++ l2.takeWhile p := by
  induction l1 with
  | nil => simp
  | cons a as ih =>
      simp only [List.all_cons, Bool.and_eq_true] at h
      simp [List.takeWhile, h.1, ih h.2]

theorem dropWhile_append_all {p : α → Bool} {l1 : List α} (l2 : List α)
    (h : l1.all p = true) : (l1 ++ l2).dropWhile p = l2.dropWhile p := by
  induction l1 with
  | nil => simp
  | cons a as ih =>
      simp only [List.all_cons, Bool.and_eq_true] at h
      simp [List.dropWhile, h.1, ih h.2]

theorem takeWhile_eq_self_of_all {p : α → Bool} {l : List α} (h : l.all p = true) :
    l.takeWhile p = l := by
  induction l with
  | nil => simp
  | cons a as ih =>
      simp only [List.all_cons, Bool.and_eq_true] at h
      simp [List.takeWhile, h.1, ih h.2]

theorem dropWhile_eq_self_of_none {p : α → Bool} {l : List α}
    (h : ∀ c ∈ l, p c = false) : l.dropWhile p = l := by
  cases l with
  | nil => simp
  | cons a as => simp [List.dropWhile, h a (List.mem_cons_self a as)]

/-- The score regex on a well-formed `digits ++ '-' ++ digits` list. -/
theorem scoreRegex_concat {A B : List Char} (hA1 : A ≠ []) (hA2 : A.all isDig = true)
    (hB1 : B ≠ []) (hB2 : B.all isDig = true) :
    scoreRegex (A ++ '-' :: B) = some (digitsVal A, digitsVal B) := by
  have hdash : isDig '-' = false := by decide
  have htake : (A ++ '-' :: B).takeWhile isDig = A := by
    rw [takeWhile_append_all _ hA2, List.takeWhile_cons, hdash]
    simp
  have hdrop : (A ++ '-' :: B).dropWhile isDig = '-' :: B := by
    rw [dropWhile_append_all _ hA2, List.dropWhile_cons, hdash]
    simp
  have hBdrop : B.dropWhile (fun c => !isDig c) = B := by
    refine dropWhile_eq_self_of_none (fun c hc => ?_)
    have := List.all_eq_true.mp hB2 c hc
    simp [this]
  have h1 : ('-' :: B).dropWhile (fun c => !isDig c) = B := by
    rw [List.dropWhile_cons, hdash]
    simpa using hBdrop
  have h2 : ('-' :: B).takeWhile (fun c => !isDig c) = '-' :: B.takeWhile (fun c => !isDig c) := by
    rw [List.takeWhile_cons, hdash]
    simp
  simp only [scoreRegex, htake, hdrop, h1, h2, takeWhile_eq_self_of_all hB2]
  simp [hA1, hB1]

/-! ## Claim theorems: field parsers -/

/-- C8: `parse_score` round-trips well-formed dash-separated scores: for all
naturals h, a, parsing the string `f"{h}-{a}"` yields exactly `(h, a)`. -/
theorem isDig_not_space {c : Char} (hd : isDig c = true) : pyIsSpace c = false := by
  by_contra hs
  rw [Bool.not_eq_false] at hs
  simp only [pyIsSpace, Bool.or_eq_true, decide_eq_true_eq] at hs
  rcases hs with (((((rfl | rfl) | rfl) | rfl) | rfl) | rfl) <;> simp [isDig] at hd

theorem parse_score_roundtrip (h a : Nat) :
    parse_score (PyVal.vStr (natDec h ++ "-" ++ natDec a)) = (some (h : Int), some (a : Int)) := by
  have hdata : (natDec h ++ "-" ++ natDec a).data = natDecChars h ++ '-' :: natDecChars a := by
    simp [natDec, String.data_append]
  have hnospace : ∀ c ∈ (natDec h ++ "-" ++ natDec a).data, pyIsSpace c = false := by
    rw [hdata]
    intro c hc
    rcases List.mem_append.mp hc with hc | hc
    · exact isDig_not_space (List.all_eq_true.mp (natDecChars_all_dig h) c hc)
    · rcases List.mem_cons.mp hc with rfl | hc
      · decide
      · exact isDig_not_space (List.all_eq_true.mp (natDecChars_all_dig a) c hc)
  have hstrip : pyStrip (natDec h ++ "-" ++ natDec a) = natDec h ++ "-" ++ natDec a := by
    refine String.ext ?_
    show stripRight (stripLeft (natDec h ++ "-" ++ natDec a).data) = _
    rw [stripLeft, dropWhile_eq_self_of_none hnospace]
    rw [stripRight, dropWhile_eq_self_of_none (fun c hc => hnospace c (List.mem_reverse.mp hc)),
      List.reverse_reverse]
  have hne : ¬(natDec h ++ "-" ++ natDec a) = "" := by
    intro hcontra
    have h0 : (natDec h ++ "-" ++ natDec a).data = ("" : String).data := by rw [hcontra]
    rw [hdata] at h0
    simpa using congrArg List.length h0
  simp only [parse_score, pyStr, pdIsna, hstrip, Bool.false_or]
  rw [if_neg (by simpa using hne)]
  rw [hdata, scoreRegex_concat (natDecChars_ne_nil h) (natDecChars_all_dig h)
        (natDecChars_ne_nil a) (natDecChars_all_dig a)]
  rw [digitsVal_natDecChars, digitsVal_natDecChars]

/-- A score argument that is missing or non-numeric in the sense of the
spec: `None`, `NaN`, or a string `int()` cannot convert. -/
def missingOrNonNumeric (v : PyVal) : Prop :=
  v = PyVal.vNone ∨ v = PyVal.vNaN ∨ ∃ s, v = PyVal.vStr s ∧ pyIntOfString s = none

theorem compute_result_int (hg ag : Int) (ht aw : Option String) :
    compute_result (PyVal.vInt hg) (PyVal.vInt ag) ht aw =
      some (if hg > ag then (if truthyStr ht then ht.getD "" else "home_team")
            else if ag > hg then (if truthyStr aw then aw.getD "" else "away_team")
            else "draw") := by
  simp only [compute_result, pdIsna, pyIntCast, Bool.or_self, Bool.false_eq_true, if_false]
  split_ifs <;> rfl

/-- C6: for all integer scores h, a ≥ 0 and non-empty team names X, Y,
`compute_result` returns X when h > a, Y when a > h, "draw" on equality;
and whenever either score argument is missing or non-numeric it returns
`None` without raising. -/
theorem compute_result_winner_spec :
    (∀ (h a : Nat) (X Y : String), X ≠ "" → Y ≠ "" →
      ((h > a → compute_result (PyVal.vInt h) (PyVal.vInt a) (some X) (some Y) = some X) ∧
       (a > h → compute_result (PyVal.vInt h) (PyVal.vInt a) (some X) (some Y) = some Y) ∧
       (h = a → compute_result (PyVal.vInt h) (PyVal.vInt a) (some X) (some Y) = some "draw"))) ∧
    (∀ (hg ag : PyVal) (ht aw : Option String),
      missingOrNonNumeric hg ∨ missingOrNonNumeric ag →
      compute_result hg ag ht aw = none) := by
  constructor
  · intro h a X Y hX hY
    rw [compute_result_int]
    refine ⟨fun hgt => ?_, fun hgt => ?_, fun heq => ?_⟩
    · rw [if_pos (by exact_mod_cast hgt)]
      simp [truthyStr, hX]
    · rw [if_neg (by omega), if_pos (by exact_mod_cast hgt)]
      simp [truthyStr, hY]
    · rw [if_neg (by omega), if_neg (by omega)]
  · rintro hg ag ht aw (hm | hm)
    · rcases hm with rfl | rfl | ⟨s, rfl, hs⟩
      · rfl
      · rfl
      · cases ag <;> simp [compute_result, pdIsna, pyIntCast, hs]
    · rcases hm with rfl | rfl | ⟨s, rfl, hs⟩
      · simp [compute_result, pdIsna]
      · simp [compute_result, pdIsna]
      · cases hg with
        | vNone => rfl
        | vNaN => rfl
        | vInt n => simp [compute_result, pdIsna, pyIntCast, hs]
        | vStr s2 =>
            cases hcast : pyIntOfString s2 <;>
              simp [compute_result, pdIsna, pyIntCast, hs, hcast]

theorem compute_result_winner_spec_witness :
    compute_result (PyVal.vInt 2) (PyVal.vInt 1) (some "France") (some "Brazil") = some "France" ∧
    compute_result (PyVal.vInt 0) (PyVal.vInt 3) (some "France") (some "Brazil") = some "Brazil" ∧
    compute_result (PyVal.vInt 1) (PyVal.vInt 1) (some "France") (some "Brazil") = some "draw" ∧
    compute_result PyVal.vNaN (PyVal.vInt 1) (some "France") (some "Brazil") = none ∧
    compute_result (PyVal.vInt 1) (PyVal.vStr "n/a") (some "France") (some "Brazil") = none :=
  ⟨(compute_result_winner_spec.1 2 1 "France" "Brazil" (by decide) (by decide)).1 (by decide),
   (compute_result_winner_spec.1 0 3 "France" "Brazil" (by decide) (by decide)).2.1 (by decide),
   (compute_result_winner_spec.1 1 1 "France" "Brazil" (by decide) (by decide)).2.2 rfl,
   compute_result_winner_spec.2 PyVal.vNaN (PyVal.vInt 1) (some "France") (some "Brazil")
     (Or.inl (Or.inr (Or.inl rfl))),
   compute_result_winner_spec.2 (PyVal.vInt 1) (PyVal.vStr "n/a") (some "France") (some "Brazil")
     (Or.inr (Or.inr (Or.inr ⟨"n/a", rfl, by decide⟩)))⟩

/-- C10: when the winning side's team-name argument is `None` or the empty
string (both falsy in Python), `compute_result` returns the literal string
"home_team" (resp. "away_team") instead of a team name. -/
theorem compute_result_literal_fallback :
    ∀ (h a : Nat) (ht aw : Option String),
      (h > a → ht = none ∨ ht = some "" →
        compute_result (PyVal.vInt h) (PyVal.vInt a) ht aw = some "home_team") ∧
      (a > h → aw = none ∨ aw = some "" →
        compute_result (PyVal.vInt h) (PyVal.vInt a) ht aw = some "away_team") := by
  intro h a ht aw
  constructor
  · rintro hgt (rfl | rfl) <;>
      · rw [compute_result_int, if_pos (by exact_mod_cast hgt)]
        simp [truthyStr]
  · rintro hgt (rfl | rfl) <;>
      · rw [compute_result_int, if_neg (by omega), if_pos (by exact_mod_cast hgt)]
        simp [truthyStr]

theorem compute_result_literal_fallback_witness :
    compute_result (PyVal.vInt 2) (PyVal.vInt 0) none (some "Brazil") = some "home_team" ∧
    compute_result (PyVal.vInt 0) (PyVal.vInt 2) (some "France") (some "") = some "away_team" :=
  ⟨(compute_result_literal_fallback 2 0 none (some "Brazil")).1 (by decide) (Or.inl rfl),
   (compute_result_literal_fallback 0 2 (some "France") (some "")).2 (by decide) (Or.inr rfl)⟩

/-- C7 counterexample: "Bosnia-Herzegovina" is a key of `TEAMS_MAPPING`,
`normalize_team` maps it to "Bosnia and Herzegovina", but a second
application title-cases that to "Bosnia And Herzegovina", so
`normalize_team` is not idempotent on this alias input. -/
theorem normalize_team_not_idempotent_cex :
    "Bosnia-Herzegovina" ∈ TEAMS_MAPPING.map Prod.fst ∧
    normalize_team (some "Bosnia-Herzegovina") = "Bosnia and Herzegovina" ∧
    normalize_team (some (normalize_team (some "Bosnia-Herzegovina"))) = "Bosnia And Herzegovina" ∧
    normalize_team (some (normalize_team (some "Bosnia-Herzegovina"))) ≠
      normalize_team (some "Bosnia-Herzegovina") := by
  refine ⟨by decide, by decide, by decide, by decide⟩

/-- C7 (amended): `normalize_team` is idempotent on every key of the team
alias table except "Bosnia-Herzegovina" and "Irish Republic", whose mapped
values ("Bosnia and Herzegovina", "Republic of Ireland") contain a
lower-case connective that a second pass title-cases. -/
theorem normalize_team_idempotent_on_aliases :
    ∀ x ∈ TEAMS_MAPPING.map Prod.fst, x ≠ "Bosnia-Herzegovina" → x ≠ "Irish Republic" →
      normalize_team (some (normalize_team (some x))) = normalize_team (some x) := by
  decide

theorem normalize_team_idempotent_on_aliases_witness :
    normalize_team (some (normalize_team (some "West Germany"))) =
      normalize_team (some "West Germany") :=
  normalize_team_idempotent_on_aliases "West Germany" (by decide) (by decide) (by decide)

/-! ## `validate` (transform.py:699)

`validate` inspects `df.columns` and indexes rows by column name, so its
input is modelled as an untyped frame: a column list plus rows of
name/cell pairs.  Indexing a missing name raises `KeyError`; comparing
incomparable cells with `<=` raises `TypeError`; both are modelled in the
`Except String` monad. -/

structure VTable where
  cols : List String
  rows : List (List (String × PyVal))
  deriving DecidableEq, Repr

def rowGet (r : List (String × PyVal)) (c : String) : Except String PyVal :=
  match r.lookup c with
  | some v => .ok v
  | none => .error "KeyError"

/-- Python `==` between two cells (scalar semantics: `NaN == x` is false,
values of different types compare unequal, no exception). -/
def pyEq : PyVal → PyVal → Bool
  | PyVal.vStr a, PyVal.vStr b => a = b
  | PyVal.vInt a, PyVal.vInt b => a = b
  | PyVal.vNone, PyVal.vNone => true
  | _, _ => false

/-- Python `<=` between two cells: int/int and str/str compare, `NaN`
comparisons are false, everything else raises `TypeError`. -/
def pyLe : PyVal → PyVal → Except String Bool
  | PyVal.vInt a, PyVal.vInt b => .ok (a ≤ b)
  | PyVal.vStr a, PyVal.vStr b => .ok (a ≤ b)
  | PyVal.vNaN, PyVal.vNaN => .ok false
  | PyVal.vNaN, PyVal.vInt _ => .ok false
  | PyVal.vInt _, PyVal.vNaN => .ok false
  | _, _ => .error "TypeError"

def REQUIRED_COLS : List String :=
  ["id_match", "home_team", "away_team", "home_result",
   "away_result", "result", "date", "round", "city", "edition"]

/-- The row loop of `validate`: for each non-draw, non-`None` result, probe
whether the declared winner's score is consistent (the probe's outcome is
only logged; its evaluation can raise). -/
def validateRows : List (List (String × PyVal)) → Except String Unit
  | [] => .ok ()
  | r :: rest => do
      let res ← rowGet r "result"
      if !pyEq res (PyVal.vStr "draw") && res ≠ PyVal.vNone then
        let ht ← rowGet r "home_team"
        if pyEq res ht then
          let hr ← rowGet r "home_result"
          let ar ← rowGet r "away_result"
          let _ ← pyLe hr ar
          validateRows rest
        else
          let aw ← rowGet r "away_team"
          if pyEq res aw then
            let ar ← rowGet r "away_result"
            let hr ← rowGet r "home_result"
            let _ ← pyLe ar hr
            validateRows rest
          else validateRows rest
      else validateRows rest

/-- `WorldCupTransformer.validate`: the missing-column check only feeds the
issue log; after the row loop the function unconditionally returns
`True`. -/
def validate (df : VTable) : Except String Bool := do
  let _missing := REQUIRED_COLS.filter (fun c => !df.cols.contains c)
  let _ ← validateRows df.rows
  return true

/-- A row whose accessed fields are present and well-typed: `result` is a
string or `None`, teams present, scores integers. -/
def goodRowB (r : List (String × PyVal)) : Bool :=
  (match r.lookup "result" with
   | some PyVal.vNone => true | some (PyVal.vStr _) => true | _ => false) &&
  (r.lookup "home_team").isSome && (r.lookup "away_team").isSome &&
  (match r.lookup "home_result" with | some (PyVal.vInt _) => true | _ => false) &&
  (match r.lookup "away_result" with | some (PyVal.vInt _) => true | _ => false)

theorem validateRows_ok {rows : List (List (String × PyVal))}
    (h : ∀ r ∈ rows, goodRowB r = true) : validateRows rows = .ok () := by
  induction rows with
  | nil => rfl
  | cons r rest ih =>
      have hr := h r (List.mem_cons_self r rest)
      have hrest : ∀ x ∈ rest, goodRowB x = true := fun x hx =>
        h x (List.mem_cons_of_mem r hx)
      simp only [goodRowB, Bool.and_eq_true, Option.isSome_iff_exists] at hr
      obtain ⟨⟨⟨⟨hres, ⟨vht, hht⟩⟩, ⟨vaw, haw⟩⟩, hhr⟩, har⟩ := hr
      rw [validateRows]
      rcases hlr : r.lookup "result" with _ | vres
      · rw [hlr] at hres; simp at hres
      · rcases hhr2 : r.lookup "home_result" with _ | vhr
        · rw [hhr2] at hhr; simp at hhr
        · rcases har2 : r.lookup "away_result" with _ | var
          · rw [har2] at har; simp at har
          · rw [hhr2] at hhr
            rw [har2] at har
            rcases vhr with _ | _ | nh | _ <;> simp at hhr
            rcases var with _ | _ | na | _ <;> simp at har
            simp only [rowGet, hlr, hht, haw, hhr2, har2, bind, Except.bind]
            rw [hlr] at hres
            split
            · split
              · simp only [pyLe, bind, Except.bind]
                exact ih hrest
              · split
                · simp only [pyLe, bind, Except.bind]
                  exact ih hrest
                · exact ih hrest
            · exact ih hrest

/-- C5 (amended): `validate` reports success (`True`) for every table whose
rows carry the accessed fields with well-typed values — in particular it
still returns `True` when required columns are absent from the column
list, or when a declared winner's score contradicts the result; but a
non-empty table whose rows lack the `result` (or team/score) fields makes
the row loop raise `KeyError` instead of returning. -/
theorem validate_always_reports_success (df : VTable)
    (h : ∀ r ∈ df.rows, goodRowB r = true) : validate df = .ok true := by
  simp only [validate, validateRows_ok h, bind, Except.bind]
  rfl

def c5table : VTable :=
  ⟨["id_match", "home_team", "away_team", "home_result", "away_result",
    "result", "date", "round", "edition"],
   [[("id_match", PyVal.vInt 1), ("home_team", PyVal.vStr "France"),
     ("away_team", PyVal.vStr "Brazil"), ("home_result", PyVal.vInt 0),
     ("away_result", PyVal.vInt 2), ("result", PyVal.vStr "France"),
     ("date", PyVal.vStr "1998-07-12"), ("round", PyVal.vStr "Final"),
     ("edition", PyVal.vStr "1998")],
    [("id_match", PyVal.vInt 2), ("home_team", PyVal.vStr "Italy"),
     ("away_team", PyVal.vStr "Spain"), ("home_result", PyVal.vInt 1),
     ("away_result", PyVal.vInt 1), ("result", PyVal.vNone),
     ("date", PyVal.vStr "1934-05-31"), ("round", PyVal.vStr "Group Stage"),
     ("edition", PyVal.vStr "1934")]]⟩

theorem validate_always_reports_success_witness : validate c5table = .ok true :=
  validate_always_reports_success c5table (by decide)

/-- C5 counterexample: a one-row table without a `result` column makes
`validate` raise `KeyError` at `row['result']` — it does not return `True`
— even though the missing-column check just logged the absence. -/
theorem validate_keyerror_cex :
    validate ⟨["home_team"], [[("home_team", PyVal.vStr "France")]]⟩ = .error "KeyError" ∧
    validate ⟨["home_team"], [[("home_team", PyVal.vStr "France")]]⟩ ≠ .ok true := by
  have h1 : validate ⟨["home_team"], [[("home_team", PyVal.vStr "France")]]⟩ =
      .error "KeyError" := rfl
  refine ⟨h1, fun hc => ?_⟩
  rw [h1] at hc
  exact Except.noConfusion hc

/-! ## `enrich_2022_with_cities` (transform.py:572) -/

/-- Python `<` on strings: lexicographic by code point. -/
def charListLt : List Char → List Char → Bool
  | [], [] => false
  | [], _ :: _ => true
  | _ :: _, [] => false
  | a :: as, b :: bs => a.toNat < b.toNat || (a.toNat = b.toNat && charListLt as bs)

def pyStrLt (a b : String) : Bool := charListLt a.data b.data

/-- Python `sorted([a, b])` on two strings (code-point order). -/
def sortPair (a b : String) : String × String := if pyStrLt b a then (b, a) else (a, b)

/-- A row of the 2022 city-reference table. -/
structure CityRef where
  home_team : Option String
  away_team : Option String
  city : Option String
  deriving DecidableEq, Repr

/-- Python dict assignment: update an existing key in place, else append. -/
def alInsert [DecidableEq κ] (l : List (κ × ν)) (k : κ) (v : ν) : List (κ × ν) :=
  match l with
  | [] => [(k, v)]
  | (k0, v0) :: rest => if k0 = k then (k, v) :: rest else (k0, v0) :: alInsert rest k v

/-- The `city_lookup` dict: normalized (home, away) pair ↦ normalized
reference city (later rows overwrite earlier ones). -/
def cityLookup (refs : List CityRef) : List ((String × String) × Option String) :=
  refs.foldl
    (fun acc row =>
      alInsert acc (normalize_team row.home_team, normalize_team row.away_team)
        (normalize_city row.city)) []

/-- The inner `find_city` of `enrich_2022_with_cities`. -/
def find_city (lk : List ((String × String) × Option String)) (r : CRow) : Option String :=
  if r.city ≠ some "Unknown" ∧ r.city ≠ none then r.city
  else
    let t1 := normalize_team r.home_team
    let t2 := normalize_team r.away_team
    match List.lookup (t1, t2) lk with
    | some v => v
    | none =>
        match List.lookup (t2, t1) lk with
        | some v => if sortPair t1 t2 ≠ ("Croatia", "Morocco") then v else r.city
        | none => r.city

/-- `WorldCupTransformer.enrich_2022_with_cities`. -/
def enrich_2022_with_cities (df_2022 : List CRow) (df_cities : List CityRef) : List CRow :=
  if df_cities.isEmpty then df_2022
  else
    let lk := cityLookup df_cities
    df_2022.map (fun r => { r with city := find_city lk r })

theorem find_city_known {lk : List ((String × String) × Option String)} {r : CRow}
    (h : r.city ≠ some "Unknown" ∧ r.city ≠ none) : find_city lk r = r.city := by
  simp only [find_city]
  rw [if_pos h]

theorem find_city_unknown {lk : List ((String × String) × Option String)} {r : CRow}
    (h : ¬(r.city ≠ some "Unknown" ∧ r.city ≠ none)) :
    find_city lk r =
      (match List.lookup (normalize_team r.home_team, normalize_team r.away_team) lk with
       | some v => v
       | none =>
           match List.lookup (normalize_team r.away_team, normalize_team r.home_team) lk with
           | some v =>
               if sortPair (normalize_team r.home_team) (normalize_team r.away_team) ≠
                   ("Croatia", "Morocco") then v
               else r.city
           | none => r.city) := by
  simp only [find_city]
  rw [if_neg h]

/-- C9: the city enrichment is a pure frame update of the `city` field:
row count and every non-city field are preserved; a row whose city is
already known (neither "Unknown" nor missing) is left entirely unchanged
even if a reference row exists; a row with city "Unknown" or missing gets
the city found by looking up the normalized (home, away) pair and then the
reversed pair — the reversed lookup being disallowed exactly for the
{Croatia, Morocco} pair — keeping its own city when no lookup applies. -/
theorem enrich_2022_with_cities_frame (df : List CRow) (refs : List CityRef) :
    (enrich_2022_with_cities df refs).length = df.length ∧
    ∀ p ∈ df.zip (enrich_2022_with_cities df refs),
      (p.2.home_team = p.1.home_team ∧ p.2.away_team = p.1.away_team ∧
       p.2.home_result = p.1.home_result ∧ p.2.away_result = p.1.away_result ∧
       p.2.result = p.1.result ∧ p.2.date = p.1.date ∧
       p.2.round = p.1.round ∧ p.2.edition = p.1.edition) ∧
      ((p.1.city ≠ some "Unknown" ∧ p.1.city ≠ none) → p.2 = p.1) ∧
      ((p.1.city = some "Unknown" ∨ p.1.city = none) → ¬refs.isEmpty →
        p.2.city =
          (match List.lookup (normalize_team p.1.home_team, normalize_team p.1.away_team)
              (cityLookup refs) with
           | some v => v
           | none =>
               match List.lookup (normalize_team p.1.away_team, normalize_team p.1.home_team)
                   (cityLookup refs) with
               | some v =>
                   if sortPair (normalize_team p.1.home_team) (normalize_team p.1.away_team) ≠
                       ("Croatia", "Morocco") then v
                   else p.1.city
               | none => p.1.city)) := by
  by_cases hre : refs.isEmpty
  · constructor
    · simp [enrich_2022_with_cities, hre]
    · intro p hp
      have hz : df.zip (enrich_2022_with_cities df refs) = df.zip df := by
        simp [enrich_2022_with_cities, hre]
      rw [hz] at hp
      have : p.1 = p.2 := by
        have := List.zip_map' id id df
        simp only [List.map_id] at this
        rw [this] at hp
        rcases List.mem_map.mp hp with ⟨x, _, hx⟩
        rw [← hx]
      rw [← this]
      refine ⟨⟨rfl, rfl, rfl, rfl, rfl, rfl, rfl, rfl⟩, fun _ => rfl, fun _ hcon => absurd hre hcon⟩
  · have hout : enrich_2022_with_cities df refs =
        df.map (fun r => { r with city := find_city (cityLookup refs) r }) := by
      simp [enrich_2022_with_cities, hre]
    constructor
    · rw [hout]; simp
    · intro p hp
      rw [hout] at hp
      have hz := List.zip_map' id (fun r => { r with city := find_city (cityLookup refs) r }) df
      simp only [List.map_id] at hz
      rw [hz] at hp
      rcases List.mem_map.mp hp with ⟨x, _, hx⟩
      rw [← hx]
      refine ⟨⟨rfl, rfl, rfl, rfl, rfl, rfl, rfl, rfl⟩, fun hknown => ?_, fun hunk _ => ?_⟩
      · show ({ x with city := find_city (cityLookup refs) x } : CRow) = x
        have h2 : x.city ≠ some "Unknown" ∧ x.city ≠ none := hknown
        rw [find_city_known h2]
      · have h2 : ¬(x.city ≠ some "Unknown" ∧ x.city ≠ none) := by
          have hunk2 : x.city = some "Unknown" ∨ x.city = none := hunk
          rcases hunk2 with h | h <;> simp [h]
        show find_city (cityLookup refs) x = _
        exact find_city_unknown h2

def c9refs : List CityRef :=
  [⟨some "Argentina", some "France", some "Lusail"⟩,
   ⟨some "Croatia", some "Morocco", some "Doha"⟩,
   ⟨some "Japan", some "Spain", some "Al Rayyan"⟩]

def c9df : List CRow :=
  [⟨some "Argentina", some "France", some 3, some 3, some "draw",
    some ⟨2022, 12, 18⟩, some "Final", some "Paradise City", "2022"⟩,
   ⟨some "Argentina", some "France", some 3, some 3, some "draw",
    some ⟨2022, 12, 18⟩, some "Final", some "Unknown", "2022"⟩,
   ⟨some "Spain", some "Japan", some 1, some 2, some "Japan",
    some ⟨2022, 12, 1⟩, some "Group Stage", none, "2022"⟩,
   ⟨some "Morocco", some "Croatia", some 0, some 0, some "draw",
    some ⟨2022, 11, 23⟩, some "Group Stage", some "Unknown", "2022"⟩]

theorem enrich_2022_with_cities_frame_witness :
    (enrich_2022_with_cities c9df c9refs).length = c9df.length ∧
    ∀ p ∈ c9df.zip (enrich_2022_with_cities c9df c9refs),
      (p.2.home_team = p.1.home_team ∧ p.2.away_team = p.1.away_team ∧
       p.2.home_result = p.1.home_result ∧ p.2.away_result = p.1.away_result ∧
       p.2.result = p.1.result ∧ p.2.date = p.1.date ∧
       p.2.round = p.1.round ∧ p.2.edition = p.1.edition) ∧
      ((p.1.city ≠ some "Unknown" ∧ p.1.city ≠ none) → p.2 = p.1) ∧
      ((p.1.city = some "Unknown" ∨ p.1.city = none) → ¬c9refs.isEmpty →
        p.2.city =
          (match List.lookup (normalize_team p.1.home_team, normalize_team p.1.away_team)
              (cityLookup c9refs) with
           | some v => v
           | none =>
               match List.lookup (normalize_team p.1.away_team, normalize_team p.1.home_team)
                   (cityLookup c9refs) with
               | some v =>
                   if sortPair (normalize_team p.1.home_team) (normalize_team p.1.away_team) ≠
                       ("Croatia", "Morocco") then v
                   else p.1.city
               | none => p.1.city)) :=
  enrich_2022_with_cities_frame c9df c9refs

/-! ## `enrich_with_historical_dates` (transform.py:220)

The function mixes two key spaces: the `date_pool` dict is keyed by
(sorted normalized team pair, **int** year taken from the parsed exact
date), while step 4 composes its lookup key from the edition column, a
**string** in every transformer's output.  A Python tuple holding a string
year is a different dict key than one holding the int year, so step 4's
lookup always misses; `PyYear` reproduces that heterogeneity. -/

inductive PyYear where
  | pstr : String → PyYear
  | pint : Int → PyYear
  deriving DecidableEq, Repr

/-- `str(cell)` for an optional-string cell (`NaN` prints as `nan`). -/
def pyStrCell (x : Option String) : String := x.getD "nan"

/-- A row of the historical date-reference file. -/
structure DateRef where
  home_team : Option String
  away_team : Option String
  date_exacte : String
  deriving DecidableEq, Repr

/-- Python `str.split(sep)` on char lists. -/
def splitOnChar (sep : Char) : List Char → List (List Char)
  | [] => [[]]
  | c :: rest =>
      let r := splitOnChar sep rest
      if c = sep then [] :: r
      else match r with
           | h :: t => (c :: h) :: t
           | [] => [[c]]

def isLeap (y : Nat) : Bool := (y % 4 = 0 && y % 100 ≠ 0) || y % 400 = 0

def daysInMonth (y m : Nat) : Nat :=
  if m = 1 || m = 3 || m = 5 || m = 7 || m = 8 || m = 10 || m = 12 then 31
  else if m = 4 || m = 6 || m = 9 || m = 11 then 30
  else if isLeap y then 29 else 28

/-- A calendar-valid date within the pandas `Timestamp` range. -/
def mkValidDate (y m d : Nat) : Option PDate :=
  if 1 ≤ m && m ≤ 12 && 1 ≤ d && d ≤ daysInMonth y m && 1678 ≤ y && y ≤ 2262 then
    some ⟨y, m, d⟩
  else none

/-- The reference file's `parse_date`: `pd.to_datetime(str.strip(),
format='%d/%m/%Y')`, falling back to a generic parse (modelled for its
ISO `YYYY-MM-DD` fragment), `NaT` otherwise. -/
def parseRefDate (s : String) : Option PDate :=
  let t := (pyStrip s).data
  match splitOnChar '/' t with
  | [d, m, y] =>
      if !d.isEmpty && d.all isDig && !m.isEmpty && m.all isDig && !y.isEmpty && y.all isDig then
        mkValidDate (digitsVal y) (digitsVal m) (digitsVal d)
      else none
  | _ =>
      match splitOnChar '-' t with
      | [y, m, d] =>
          if !d.isEmpty && d.all isDig && !m.isEmpty && m.all isDig && !y.isEmpty && y.all isDig then
            mkValidDate (digitsVal y) (digitsVal m) (digitsVal d)
          else none
      | _ => none

/-- A cleaned reference row (after date parsing, dropna and team
normalization). -/
structure RefClean where
  home_norm : String
  away_norm : String
  date : PDate
  deriving DecidableEq, Repr

def histRefsClean (dfDates : List DateRef) : List RefClean :=
  dfDates.filterMap (fun r =>
    (parseRefDate r.date_exacte).map
      (fun d => ⟨normalize_team r.home_team, normalize_team r.away_team, d⟩))

/-- `setdefault(key, []).append(v)` on a dict in insertion order. -/
def alAppendVal [DecidableEq κ] (l : List (κ × List ν)) (k : κ) (v : ν) : List (κ × List ν) :=
  alInsert l k (((List.lookup k l).getD []) ++ [v])

def dateLeP (a b : PDate) : Prop := dateLe a b = true

instance : DecidableRel dateLeP := fun a b => Bool.decEq _ true

/-- Step 3: the `date_pool`, keyed by (sorted normalized pair, int year of
the exact date), each group's dates sorted ascending. -/
def datePool (refs : List RefClean) :
    List (((String × String) × PyYear) × List PDate) :=
  (refs.foldl
    (fun acc rc =>
      alAppendVal acc (sortPair rc.home_norm rc.away_norm, PyYear.pint (rc.date.year : Int))
        rc.date) []).map
    (fun kv => (kv.1, kv.2.insertionSort dateLeP))

/-- Python dict counter increment `d[k] = d.get(k, 0) + 1`. -/
def alIncr [DecidableEq κ] (l : List (κ × Nat)) (k : κ) : List (κ × Nat) :=
  alInsert l k (((List.lookup k l).getD 0) + 1)

/-- Step 2: `match_counts`, keyed by (sorted raw pair, edition string);
editions above the 2010 cutoff are skipped.  (The `int()` conversion that
raises on a non-numeric edition is guarded at the top level.) -/
def matchCounts (rows : List (Nat × CRow)) : List (((String × String) × String) × Nat) :=
  rows.foldl
    (fun acc pr =>
      match pyIntOfString pr.2.edition with
      | some y =>
          if y > 2010 then acc
          else
            alIncr acc
              (sortPair (pyStrip (pyStrCell pr.2.home_team)) (pyStrip (pyStrCell pr.2.away_team)),
               pr.2.edition)
      | none => acc) []

/-- `round_order_map` lookup with `fillna(99)`. -/
def roundOrder (r : Option String) : Nat :=
  match r with
  | some s =>
      (List.lookup s
        [("Group Stage", 1), ("Round of 16", 2), ("Quarter-finals", 3),
         ("Semi-finals", 4), ("Third Place", 5), ("Final", 6)]).getD 99
  | none => 99

/-- Step 4.1 sort key: (round order, placeholder date), `NaT` last. -/
def stepRel (a b : Nat × CRow) : Prop :=
  (decide (roundOrder a.2.round < roundOrder b.2.round) ||
   (roundOrder a.2.round = roundOrder b.2.round && optDateLe a.2.date b.2.date)) = true

instance : DecidableRel stepRel := fun a b => Bool.decEq _ true

/-- Step 4: the "intelligent" ordered assignment over problematic pairs.
Its `date_pool` lookup key carries the string edition (`PyYear.pstr`)
while the pool is keyed by int years, so `available_dates_info` is always
empty; the structure is nevertheless embedded faithfully. -/
def step4Assignments (rows : List (Nat × CRow))
    (pool : List (((String × String) × PyYear) × List PDate))
    (probl : List (((String × String) × String) × Nat)) : List (Nat × PDate) :=
  probl.foldl
    (fun asg kv =>
      let t1 := kv.1.1.1
      let t2 := kv.1.1.2
      let yr := kv.1.2
      let cnt := kv.2
      let sel := rows.filter
        (fun pr =>
          ((pr.2.home_team = some t1 ∧ pr.2.away_team = some t2) ∨
           (pr.2.home_team = some t2 ∧ pr.2.away_team = some t1)) ∧ pr.2.edition = yr)
      if sel.length ≠ cnt then asg
      else
        let avail := (List.lookup (sortPair t1 t2, PyYear.pstr yr) pool).getD []
        let ordered := sel.insertionSort stepRel
        (ordered.zip avail).foldl (fun a prd => alInsert a prd.1.1 prd.2) asg) []

/-- Step 5: write the assigned dates back (only when they differ). -/
def applyAssignments (rows : List (Nat × CRow)) (asg : List (Nat × PDate)) :
    List (Nat × CRow) :=
  rows.map (fun pr =>
    match List.lookup pr.1 asg with
    | some d => if pr.2.date ≠ some d then (pr.1, { pr.2 with date := some d }) else pr
    | none => pr)

/-- Step 6: rows untouched by step 5 take, in row order, the first date of
their pair's pool not yet used under their *oriented* `home_away_year`
tracking key. -/
def step6Go (pool : List (((String × String) × PyYear) × List PDate)) (asgKeys : List Nat) :
    List (Nat × CRow) → List (String × List PDate) → List (Nat × CRow)
  | [], _ => []
  | pr :: rest, used =>
      if pr.1 ∈ asgKeys then pr :: step6Go pool asgKeys rest used
      else
        match pyIntOfString pr.2.edition with
        | none => pr :: step6Go pool asgKeys rest used
        | some y =>
            if y > 2010 then pr :: step6Go pool asgKeys rest used
            else
              let home := pyStrip (pyStrCell pr.2.home_team)
              let away := pyStrip (pyStrCell pr.2.away_team)
              let avail := (List.lookup (sortPair home away, PyYear.pint y) pool).getD []
              if avail.isEmpty then pr :: step6Go pool asgKeys rest used
              else
                let track := home ++ "_" ++ away ++ "_" ++ pr.2.edition
                let usedList := (List.lookup track used).getD []
                match avail.find? (fun d => !usedList.contains d) with
                | some d =>
                    (if pr.2.date ≠ some d then (pr.1, { pr.2 with date := some d }) else pr) ::
                      step6Go pool asgKeys rest (alInsert used track (usedList ++ [d]))
                | none => pr :: step6Go pool asgKeys rest (alInsert used track usedList)

/-- `WorldCupTransformer.enrich_with_historical_dates`.  `none` models the
uncaught `ValueError` step 2 raises when some edition is not numeric;
otherwise the enriched table.  (`_verify_date_assignments` only logs and
is a no-op.) -/
def enrich_with_historical_dates (dfMatches : List CRow) (dfDates : List DateRef) :
    Option (List CRow) :=
  if dfDates.isEmpty then some dfMatches
  else
    let rows := dfMatches.enum
    if !rows.all (fun pr => (pyIntOfString pr.2.edition).isSome) then none
    else
      let pool := datePool (histRefsClean dfDates)
      let probl := (matchCounts rows).filter (fun kv => kv.2 > 1)
      let asg := step4Assignments rows pool probl
      let rows2 := step6Go pool (asg.map Prod.fst) (applyAssignments rows asg) []
      some (rows2.map Prod.snd)

/-! ## Facts about the historical-date enrichment -/

theorem dateLe_of_lt {a b : PDate} (h : dateLt a b = true) : dateLe a b = true := by
  simp only [dateLt, dateLe, Bool.or_eq_true, Bool.and_eq_true, decide_eq_true_eq] at *
  omega

theorem dateLt_ne {a b : PDate} (h : dateLt a b = true) : a ≠ b := by
  intro heq
  subst heq
  simp only [dateLt, Bool.or_eq_true, Bool.and_eq_true, decide_eq_true_eq] at h
  omega

theorem dateLt_trans {a b c : PDate} (h1 : dateLt a b = true) (h2 : dateLt b c = true) :
    dateLt a c = true := by
  simp only [dateLt, Bool.or_eq_true, Bool.and_eq_true, decide_eq_true_eq] at *
  omega

theorem crow_set_date_eq {r : CRow} {d : PDate} (h : r.date = some d) :
    ({ r with date := some d } : CRow) = r := by
  cases r
  simp_all

theorem step6_update_eq (pr : Nat × CRow) (d : PDate) :
    (if pr.2.date ≠ some d then (pr.1, { pr.2 with date := some d }) else pr) =
      (pr.1, { pr.2 with date := some d }) := by
  by_cases h : pr.2.date = some d
  · rw [if_neg (by simpa using h), crow_set_date_eq h]
  · rw [if_pos h]

theorem alInsert_keys_pred {κ ν : Type} [DecidableEq κ] (P : κ → Prop)
    {l : List (κ × ν)} {k : κ} {v : ν}
    (hl : ∀ kv ∈ l, P kv.1) (hk : P k) : ∀ kv ∈ alInsert l k v, P kv.1 := by
  induction l with
  | nil =>
      intro kv hkv
      simp only [alInsert, List.mem_singleton] at hkv
      simp [hkv, hk]
  | cons a rest ih =>
      intro kv hkv
      rw [alInsert] at hkv
      by_cases he : a.1 = k
      · rw [if_pos he] at hkv
        rcases List.mem_cons.mp hkv with rfl | hm
        · exact hk
        · exact hl kv (List.mem_cons_of_mem a hm)
      · rw [if_neg he] at hkv
        rcases List.mem_cons.mp hkv with rfl | hm
        · exact hl _ (List.mem_cons_self a rest)
        · exact ih (fun x hx => hl x (List.mem_cons_of_mem a hx)) kv hm

theorem datePool_keys_pint (refs : List RefClean) :
    ∀ kv ∈ datePool refs, ∃ n : Int, kv.1.2 = PyYear.pint n := by
  intro kv hkv
  simp only [datePool, List.mem_map] at hkv
  obtain ⟨kv0, hkv0, rfl⟩ := hkv
  suffices hgen : ∀ (acc : List (((String × String) × PyYear) × List PDate)),
      (∀ x ∈ acc, ∃ n : Int, x.1.2 = PyYear.pint n) →
      ∀ x ∈ refs.foldl
        (fun acc rc =>
          alAppendVal acc (sortPair rc.home_norm rc.away_norm, PyYear.pint (rc.date.year : Int))
            rc.date) acc, ∃ n : Int, x.1.2 = PyYear.pint n by
    exact hgen [] (by simp) kv0 hkv0
  clear hkv0 kv0
  induction refs with
  | nil => intro acc hacc x hx; exact hacc x hx
  | cons rc rest ih =>
      intro acc hacc x hx
      rw [List.foldl_cons] at hx
      have hacc2 : ∀ z ∈ alAppendVal acc
          (sortPair rc.home_norm rc.away_norm, PyYear.pint (rc.date.year : Int)) rc.date,
          ∃ n : Int, z.1.2 = PyYear.pint n := by
        refine alInsert_keys_pred
          (fun (k : (String × String) × PyYear) => ∃ n : Int, k.2 = PyYear.pint n) hacc ?_
        exact ⟨(rc.date.year : Int), rfl⟩
      exact ih (alAppendVal acc
        (sortPair rc.home_norm rc.away_norm, PyYear.pint (rc.date.year : Int)) rc.date)
        hacc2 x hx

theorem lookup_pstr_none {pool : List (((String × String) × PyYear) × List PDate)}
    (hp : ∀ kv ∈ pool, ∃ n : Int, kv.1.2 = PyYear.pint n)
    (k : String × String) (s : String) :
    List.lookup (k, PyYear.pstr s) pool = none := by
  induction pool with
  | nil => rfl
  | cons kv rest ih =>
      obtain ⟨n, hn⟩ := hp kv (List.mem_cons_self kv rest)
      have hne : ((k, PyYear.pstr s) == kv.1) = false := by
        rw [beq_eq_false_iff_ne]
        intro he
        rw [← he] at hn
        exact PyYear.noConfusion hn
      rw [List.lookup, hne]
      exact ih (fun x hx => hp x (List.mem_cons_of_mem kv hx))

theorem foldl_const {α β : Type} {f : α → β → α} (hf : ∀ a x, f a x = a)
    (a : α) (l : List β) : l.foldl f a = a := by
  induction l generalizing a with
  | nil => rfl
  | cons x xs ih => rw [List.foldl_cons, hf a x, ih]

theorem step4Assignments_eq_nil (rows : List (Nat × CRow))
    (pool : List (((String × String) × PyYear) × List PDate))
    (probl : List (((String × String) × String) × Nat))
    (hp : ∀ kv ∈ pool, ∃ n : Int, kv.1.2 = PyYear.pint n) :
    step4Assignments rows pool probl = [] := by
  rw [step4Assignments]
  refine foldl_const (fun asg kv => ?_) [] probl
  dsimp only
  rw [lookup_pstr_none hp]
  simp only [Option.getD_none, List.zip_nil_right, List.foldl_nil, ite_self]

theorem applyAssignments_nil (rows : List (Nat × CRow)) :
    applyAssignments rows [] = rows := by
  simp [applyAssignments, List.lookup_nil]

/-! ## Claim theorems: historical-date enrichment -/

def c3gs : CRow :=
  ⟨some "Aaa", some "Bbb", some 1, some 0, some "Aaa",
   some ⟨1930, 7, 1⟩, some "Group Stage", some "Montevideo", "1930"⟩

/-- The Semi-finals match of the C3 counterexample, listing the same two
teams with the opposite home/away orientation. -/
def c3sf : CRow :=
  ⟨some "Bbb", some "Aaa", some 2, some 0, some "Bbb",
   some ⟨1930, 7, 1⟩, some "Semi-finals", some "Montevideo", "1930"⟩

def c3f : CRow :=
  ⟨some "Aaa", some "Bbb", some 0, some 1, some "Bbb",
   some ⟨1930, 7, 1⟩, some "Final", some "Montevideo", "1930"⟩

def c3refs : List DateRef :=
  [⟨some "Aaa", some "Bbb", "10/06/1930"⟩,
   ⟨some "Aaa", some "Bbb", "20/06/1930"⟩,
   ⟨some "Aaa", some "Bbb", "30/06/1930"⟩]

/-- C3 counterexample: three matches between the same two teams in the same
edition — rounds Group Stage, Semi-finals, Final in that input order with
identical placeholder dates — and a reference supplying three distinct
parseable chronological dates for that pair and year; yet the returned
table gives the Semi-finals match the *earliest* reference date (shared
with the Group Stage match), not the middle one: the per-pair date
tracking is keyed by the oriented home/away order, and the Semi-finals row
lists the pair in the reversed orientation. -/
theorem enrich_hist_middle_date_cex :
    enrich_with_historical_dates [c3gs, c3sf, c3f] c3refs =
      some [{ c3gs with date := some ⟨1930, 6, 10⟩ },
            { c3sf with date := some ⟨1930, 6, 10⟩ },
            { c3f with date := some ⟨1930, 6, 20⟩ }] ∧
    parseRefDate "10/06/1930" = some ⟨1930, 6, 10⟩ ∧
    parseRefDate "20/06/1930" = some ⟨1930, 6, 20⟩ ∧
    parseRefDate "30/06/1930" = some ⟨1930, 6, 30⟩ ∧
    dateLt ⟨1930, 6, 10⟩ ⟨1930, 6, 20⟩ = true ∧
    dateLt ⟨1930, 6, 20⟩ ⟨1930, 6, 30⟩ = true ∧
    ({ c3sf with date := some ⟨1930, 6, 10⟩ } : CRow).date ≠ some (⟨1930, 6, 20⟩ : PDate) := by
  refine ⟨by decide, rfl, rfl, rfl, rfl, rfl, by decide⟩

theorem ite_date_row (i : Nat) (r : CRow) (d : PDate) (ht at2 : Option String) (e : String)
    (hh : r.home_team = ht) (ha : r.away_team = at2) (he : r.edition = e) :
    (if r.date ≠ some d then
        (i, ({ home_team := ht, away_team := at2, home_result := r.home_result,
               away_result := r.away_result, result := r.result, date := some d,
               round := r.round, city := r.city, edition := e } : CRow))
      else (i, r)) =
      (i, ({ home_team := ht, away_team := at2, home_result := r.home_result,
             away_result := r.away_result, result := r.result, date := some d,
             round := r.round, city := r.city, edition := e } : CRow)) := by
  subst hh ha he
  exact step6_update_eq (i, r) d

/-- C3 (amended): for three matches between the same two teams in the same
edition (at or below the 2010 cutoff), rounds Group Stage, Semi-finals,
Final in that input order with identical placeholder dates, *all listing
the pair in the same home/away orientation*, and a reference supplying
three distinct parseable dates for that pair and year in chronological
order, the enrichment assigns the earliest date to the Group Stage match,
the middle one to the Semi-finals match and the latest to the Final match.
(The dates are taken in input-row order under an orientation-sensitive
tracking key — the round-precedence assignment of step 4 never fires
because its pool lookup key holds the string edition where the pool is
keyed by int years — so this matches the claim only because the input
order coincides with round order and the orientation is uniform.) -/
theorem enrich_hist_ordered_assignment
    (A B ed s1 s2 s3 : String) (y : Int) (d1 d2 d3 : PDate) (r1 r2 r3 : CRow)
    (hA : normalize_team (some A) = A) (hB : normalize_team (some B) = B)
    (hAs : pyStrip A = A) (hBs : pyStrip B = B) (hAB : A ≠ B)
    (hed : pyIntOfString ed = some y) (hy : y ≤ 2010)
    (h1h : r1.home_team = some A) (h1a : r1.away_team = some B)
    (h1r : r1.round = some "Group Stage") (h1e : r1.edition = ed)
    (h2h : r2.home_team = some A) (h2a : r2.away_team = some B)
    (h2r : r2.round = some "Semi-finals") (h2e : r2.edition = ed)
    (h3h : r3.home_team = some A) (h3a : r3.away_team = some B)
    (h3r : r3.round = some "Final") (h3e : r3.edition = ed)
    (hpl1 : r1.date = r2.date) (hpl2 : r2.date = r3.date)
    (hs1 : parseRefDate s1 = some d1) (hs2 : parseRefDate s2 = some d2)
    (hs3 : parseRefDate s3 = some d3)
    (hy1 : (d1.year : Int) = y) (hy2 : (d2.year : Int) = y) (hy3 : (d3.year : Int) = y)
    (h12 : dateLt d1 d2 = true) (h23 : dateLt d2 d3 = true) :
    enrich_with_historical_dates [r1, r2, r3]
      [⟨some A, some B, s1⟩, ⟨some A, some B, s2⟩, ⟨some A, some B, s3⟩] =
      some [{ r1 with date := some d1 }, { r2 with date := some d2 },
            { r3 with date := some d3 }] := by
  have l12 : dateLeP d1 d2 := dateLe_of_lt h12
  have l23 : dateLeP d2 d3 := dateLe_of_lt h23
  have hygt : ¬(y > 2010) := by omega
  have b21 : (d2 == d1) = false := beq_eq_false_iff_ne.mpr (Ne.symm (dateLt_ne h12))
  have b31 : (d3 == d1) = false :=
    beq_eq_false_iff_ne.mpr (Ne.symm (dateLt_ne (dateLt_trans h12 h23)))
  have b32 : (d3 == d2) = false := beq_eq_false_iff_ne.mpr (Ne.symm (dateLt_ne h23))
  have hpool : datePool (histRefsClean
      [⟨some A, some B, s1⟩, ⟨some A, some B, s2⟩, ⟨some A, some B, s3⟩]) =
      [((sortPair A B, PyYear.pint y), [d1, d2, d3])] := by
    have hrefs : histRefsClean
        [⟨some A, some B, s1⟩, ⟨some A, some B, s2⟩, ⟨some A, some B, s3⟩] =
        [⟨A, B, d1⟩, ⟨A, B, d2⟩, ⟨A, B, d3⟩] := by
      simp [histRefsClean, hs1, hs2, hs3, hA, hB]
    rw [hrefs]
    simp only [datePool, List.foldl_cons, List.foldl_nil]
    rw [hy1, hy2, hy3]
    simp only [alAppendVal, alInsert, List.lookup, List.lookup_nil, beq_self_eq_true,
      beq_self_eq_true', Option.getD_none, Option.getD_some, List.nil_append, if_pos rfl]
    simp only [List.map, List.insertionSort, List.orderedInsert, l12, l23, if_true]
  have hstep6 : step6Go [((sortPair A B, PyYear.pint y), [d1, d2, d3])] []
      [(0, r1), (1, r2), (2, r3)] [] =
      [(0, { r1 with date := some d1 }), (1, { r2 with date := some d2 }),
       (2, { r3 with date := some d3 })] := by
    simp only [step6Go, List.not_mem_nil, if_false, h1e, h2e, h3e, hed,
      h1h, h2h, h3h, h1a, h2a, h3a, pyStrCell, Option.getD_some, hAs, hBs, hygt,
      List.lookup, List.lookup_nil, beq_self_eq_true, beq_self_eq_true',
      Option.getD_none, List.isEmpty_cons, Bool.false_eq_true,
      List.find?, List.contains, List.elem, b21, b31, b32, Bool.not_false, Bool.not_true,
      List.nil_append, alInsert, if_pos rfl, List.map]
    rw [ite_date_row 0 r1 d1 _ _ _ h1h h1a h1e, ite_date_row 1 r2 d2 _ _ _ h2h h2a h2e,
      ite_date_row 2 r3 d3 _ _ _ h3h h3a h3e]
  have hp : ∀ kv ∈ [((sortPair A B, PyYear.pint y), [d1, d2, d3])],
      ∃ n : Int, kv.1.2 = PyYear.pint n := by
    intro kv hkv
    rcases List.mem_singleton.mp hkv with rfl
    exact ⟨y, rfl⟩
  have henum : ([r1, r2, r3]).enum = [(0, r1), (1, r2), (2, r3)] := rfl
  have hguard : ([(0, r1), (1, r2), (2, r3)] : List (Nat × CRow)).all
      (fun pr => (pyIntOfString pr.2.edition).isSome) = true := by
    simp [List.all_cons, h1e, h2e, h3e, hed]
  simp only [enrich_with_historical_dates, List.isEmpty_cons, Bool.false_eq_true, if_false,
    henum, hguard, Bool.not_true, hpool]
  rw [step4Assignments_eq_nil [(0, r1), (1, r2), (2, r3)]
      [((sortPair A B, PyYear.pint y), [d1, d2, d3])]
      ((matchCounts [(0, r1), (1, r2), (2, r3)]).filter (fun kv => kv.2 > 1)) hp]
  rw [applyAssignments_nil]
  simp only [List.map, hstep6]

/-- The Semi-finals row of the C3 witness, listing the pair in the same
orientation as the other two rows. -/
def c3sfU : CRow :=
  ⟨some "Aaa", some "Bbb", some 2, some 0, some "Aaa",
   some ⟨1930, 7, 1⟩, some "Semi-finals", some "Montevideo", "1930"⟩

theorem enrich_hist_ordered_assignment_witness :
    enrich_with_historical_dates [c3gs, c3sfU, c3f] c3refs =
      some [{ c3gs with date := some ⟨1930, 6, 10⟩ },
            { c3sfU with date := some ⟨1930, 6, 20⟩ },
            { c3f with date := some ⟨1930, 6, 30⟩ }] :=
  enrich_hist_ordered_assignment "Aaa" "Bbb" "1930" "10/06/1930" "20/06/1930" "30/06/1930"
    1930 ⟨1930, 6, 10⟩ ⟨1930, 6, 20⟩ ⟨1930, 6, 30⟩ c3gs c3sfU c3f
    (by decide) (by decide) (by decide) (by decide) (by decide) (by decide) (by decide)
    (by decide) (by decide) (by decide) (by decide)
    (by decide) (by decide) (by decide) (by decide)
    (by decide) (by decide) (by decide) (by decide)
    (by decide) (by decide)
    (by decide) (by decide) (by decide)
    (by decide) (by decide) (by decide)
    (by decide) (by decide)

end WCup
